import Mathlib

/-!
Verification of the Deontological Firewall (DFW) reference kernel.

This file gives a shallow embedding of the Python sources under
`dfw_code/` and proves the specified properties about them:

- `dfw_kernel.py`       : priority weights, `violation_score`, `choose_action`
- `safe_mode.py`        : `SafeModeState`, `enter_safe_mode`, `exit_safe_mode`
- `cpm_simulator.py`    : `aggregate_ensemble_confidence`
- `dfw_v6_master_metadata.py` : `is_critical_target`, `veto_metadata` (ATL)
- `dfw_v6_risk_trajectory_harness.py` : `rmdm_check`, `hrai_check`,
  `long_horizon_guard`

Modelling conventions:
- Python `float` values are modelled as `Rat` (exact rationals).
- Python `int` is modelled as `Int` (or `Nat` where the value is
  provably non-negative, as for the violation score).
- Mutation of a dataclass field becomes explicit state passing:
  a Python procedure mutating `state` becomes a Lean function
  returning the new state.
- `raise ValueError(msg)` becomes `Except.error msg`.
- Python's stable `list.sort` is modelled by a stable insertion sort
  (the output of any stable sort under a total preorder is unique,
  so this is observationally the same function).
- Python string comparison (by Unicode code point) and `str.lower`
  (restricted to ASCII, which covers every string the kernel builds)
  are modelled over `List Char`.
- `round(x, d)` (round-half-to-even) is modelled by `pyRound`.
- The `%`/f-string numeric formatting inside reason messages is
  abstracted by `toString` of the rational value; every claim about
  reason strings only depends on their (non-)emptiness or on the
  literal prefix, never on the digits printed.
-/

namespace DFW

-- ====================================================================
-- dfw_kernel.py : priority weights, Action, SafeState
-- ====================================================================

def P1_WEIGHT : Nat := 10 ^ 6

def P2_WEIGHT : Nat := 10 ^ 3

def P3_WEIGHT : Nat := 10

structure Action where
  name : String
  description : String := ""
  tags : List String := []
  causes_irreversible_harm : Bool := false
  violates_truth_lock : Bool := false
  violates_auth_lock : Bool := false
  violates_resource_bounds : Bool := false
  is_rescue : Bool := false
deriving Repr, DecidableEq

structure SafeState where
  imminent_harm : Bool := false
deriving Repr, DecidableEq

/-- Model of `violation_score` from `dfw_kernel.py` (lines 70-98): the four
sequential `if` blocks adding P1/P2/P3 weights and the MDR omission
penalty. -/
def violation_score (action : Action) (state : SafeState) : Nat :=
  let score : Nat := 0
  let score := if action.causes_irreversible_harm then score + P1_WEIGHT else score
  let score := if action.violates_truth_lock || action.violates_auth_lock then
    score + P2_WEIGHT else score
  let score := if action.violates_resource_bounds then score + P3_WEIGHT else score
  let score := if state.imminent_harm && !action.is_rescue then score + P1_WEIGHT else score
  score

-- ====================================================================
-- Python string comparison (lexicographic by code point), modelled
-- over `List Char`, and a stable insertion sort modelling `list.sort`.
-- ====================================================================

/-- Lexicographic `<=` on char lists by code point: the comparison
Python performs on `str` values. -/
def charListLe : List Char → List Char → Bool
  | [], _ => true
  | _ :: _, [] => false
  | a :: as, b :: bs =>
    if a.toNat < b.toNat then true
    else if b.toNat < a.toNat then false
    else charListLe as bs

/-- Python `s <= t` on strings. -/
def strLe (s t : String) : Bool :=
  charListLe s.toList t.toList

/-- The comparison `list.sort(key=lambda x: (x["score"], x["action"].name))`
performs between two scored entries. -/
def scoredLe (x y : Nat × Action) : Bool :=
  x.1 < y.1 || (x.1 == y.1 && strLe x.2.name y.2.name)

/-- Insert into a sorted list, keeping earlier-inserted equal elements
first (the stability discipline of Python's sort). -/
def insertSorted (le : α → α → Bool) (x : α) : List α → List α
  | [] => [x]
  | y :: ys => if le x y then x :: y :: ys else y :: insertSorted le x ys

/-- Stable insertion sort; observationally identical to Python's stable
`list.sort` for a total preorder comparison. -/
def insertionSort (le : α → α → Bool) : List α → List α
  | [] => []
  | x :: xs => insertSorted le x (insertionSort le xs)

/-- Model of `choose_action` from `dfw_kernel.py` (lines 105-123): raise on an
empty candidate list, otherwise score every candidate, sort stably by
`(score, name)` and return the first entry's action. -/
def choose_action (candidate_actions : List Action) (state : SafeState) :
    Except String Action :=
  if candidate_actions.isEmpty then
    Except.error "No candidate actions provided."
  else
    let scored := candidate_actions.map (fun a => (violation_score a state, a))
    match insertionSort scoredLe scored with
    | [] => Except.error "No candidate actions provided."
    | s :: _ => Except.ok s.2

-- ====================================================================
-- safe_mode.py : SafeModeState, enter_safe_mode, exit_safe_mode
-- ====================================================================

structure SafeModeState where
  active : Bool := false
  reason : String := ""
deriving Repr, DecidableEq

/-- Model of `enter_safe_mode` from `safe_mode.py` (lines 43-47): sets
`active := true` and stores the caller-supplied reason (the `print`
call is I/O only). -/
def enter_safe_mode (_state : SafeModeState) (reason : String) : SafeModeState :=
  { active := true, reason := reason }

/-- Model of `exit_safe_mode` from `safe_mode.py` (lines 50-63): an early
`return` leaves the state untouched when not authorised; otherwise
`active := false` and `reason := ""`. -/
def exit_safe_mode (state : SafeModeState) (authorised : Bool) : SafeModeState :=
  if !authorised then state
  else { active := false, reason := "" }

-- ====================================================================
-- cpm_simulator.py : aggregate_ensemble_confidence
-- ====================================================================

/-- Python `max` over a non-empty list (folds `max` from the head);
returns `0` on `[]`, a case the callers below guard themselves. -/
def listMax : List Rat → Rat
  | [] => 0
  | x :: xs => xs.foldl max x

/-- Model of `aggregate_ensemble_confidence` from `cpm_simulator.py`
(lines 83-92): `0.0` on an empty list, `max` otherwise. -/
def aggregate_ensemble_confidence (confidences : List Rat) : Rat :=
  if confidences.isEmpty then 0
  else listMax confidences

-- ====================================================================
-- Shared small helpers: Python round / join / substring over chars
-- ====================================================================

/-- Python `round(q, d)`: round to `d` decimal places, ties to even. -/
def pyRound (d : Nat) (q : Rat) : Rat :=
  let m : Rat := (10 : Rat) ^ d
  let x := q * m
  let n : Int := ⌊x⌋
  let frac := x - (n : Rat)
  let r : Int :=
    if frac < 1 / 2 then n
    else if frac > 1 / 2 then n + 1
    else if n % 2 = 0 then n else n + 1
  (r : Rat) / m

/-- Python `sep.join(parts)`. -/
def joinWith (sep : String) : List String → String
  | [] => ""
  | [x] => x
  | x :: xs => x ++ sep ++ joinWith sep xs

/-- Char-list version of "needle is a contiguous run starting here". -/
def charPre : List Char → List Char → Bool
  | [], _ => true
  | _ :: _, [] => false
  | a :: as, b :: bs => a == b && charPre as bs

/-- Python `needle in hay` (contiguous substring) over char lists. -/
def charSub (needle : List Char) : List Char → Bool
  | [] => needle.isEmpty
  | b :: bs => charPre needle (b :: bs) || charSub needle bs

/-- Python `str.lower`, ASCII range (every string the kernel compares
against is ASCII). -/
def lowerChar (c : Char) : Char :=
  if 65 ≤ c.toNat && c.toNat ≤ 90 then Char.ofNat (c.toNat + 32) else c

/-- Lower-cased character list of a string. -/
def lowerList (s : String) : List Char :=
  s.toList.map lowerChar

-- ====================================================================
-- dfw_v6_master_metadata.py : schema constants and the ATL veto
-- ====================================================================

def CRITICAL_ASSETS : List String :=
  ["Critical System 7", "Global Network Link", "Human Control Panel",
   "Life Support"]

/-- Model of `MAX_TIME_BY_ACTION` dict (lines 45-50), as an association list. -/
def MAX_TIME_BY_ACTION : List (String × Rat) :=
  [("MOVE", 100), ("ACQUIRE", 60), ("COMMUNICATE", 10), ("ANALYSIS", 1200)]

/-- Model of `MAX_TIME_BY_ACTION.get(action, 9999.0)`. -/
def time_max_for (action : String) : Rat :=
  (MAX_TIME_BY_ACTION.lookup action).getD 9999

/-- Model of `is_critical_target` (lines 167-169): any critical-asset name is a
substring of the target string. -/
def is_critical_target (target : String) : Bool :=
  CRITICAL_ASSETS.any (fun asset => charSub asset.toList target.toList)

/-- The `EXPECTED_SCHEMA` fields `veto_metadata` reads (the
`target_coords` triple is never consulted by the veto logic). -/
structure MetadataRecord where
  action_type : String := "MOVE"
  target_object : String := "safe_container"
  estimated_consequences : String := "Target reached."
  predicted_p1_violation : Bool := false
  predicted_p2_violation : Bool := false
  resource_cost_units : Int := 1
  execution_time_seconds : Rat := 1 / 2
deriving Repr, DecidableEq

structure VetoResult where
  veto : Bool
  reason : String
  confidence : Rat
deriving Repr, DecidableEq

/-- Veto 1 trigger (lines 190-196): internal contradiction. -/
def veto1_triggers (r : MetadataRecord) : Bool :=
  r.predicted_p1_violation &&
    charSub "no observable physical change".toList (lowerList r.estimated_consequences)

/-- Veto 2 trigger (lines 198-206): cheap high-risk action. -/
def veto2_triggers (r : MetadataRecord) : Bool :=
  (r.predicted_p1_violation || r.predicted_p2_violation) &&
    r.resource_cost_units < 10

/-- Veto 3 trigger (lines 208-217): time disproportion against the
per-action maximum (default 9999.0 for unknown action types). -/
def veto3_triggers (r : MetadataRecord) : Bool :=
  r.execution_time_seconds > time_max_for r.action_type

/-- Veto 4 trigger (lines 219-225): critical asset with P1=False. -/
def veto4_triggers (r : MetadataRecord) : Bool :=
  is_critical_target r.target_object && !r.predicted_p1_violation

def veto1_msg : String :=
  "Veto 1: P1=True with a no-observable-physical-change text."

def veto2_msg : String :=
  "Veto 2: High P1/P2 risk with suspiciously low cost."

def veto3_msg (r : MetadataRecord) : String :=
  "Veto 3: Exec time " ++ toString r.execution_time_seconds ++
    "s exceeds invariant for " ++ r.action_type ++
    " (max " ++ toString (time_max_for r.action_type) ++ "s)."

def veto4_msg (r : MetadataRecord) : String :=
  "Veto 4: Critical asset " ++ r.target_object ++
    " targeted with P1=False in metadata."

/-- The `reasons` list built by the four sequential `if` blocks of
`veto_metadata` (appends preserve this rule order). -/
def vetoReasons (r : MetadataRecord) : List String :=
  (if veto1_triggers r then [veto1_msg] else []) ++
  (if veto2_triggers r then [veto2_msg] else []) ++
  (if veto3_triggers r then [veto3_msg r] else []) ++
  (if veto4_triggers r then [veto4_msg r] else [])

/-- The `confidence_sum` accumulated alongside `reasons`. -/
def confidenceSum (r : MetadataRecord) : Rat :=
  (if veto1_triggers r then (95 : Rat) / 100 else 0) +
  (if veto2_triggers r then (50 : Rat) / 100 else 0) +
  (if veto3_triggers r then (85 : Rat) / 100 else 0) +
  (if veto4_triggers r then (90 : Rat) / 100 else 0)

/-- Model of `veto_metadata` from `dfw_v6_master_metadata.py` (lines 172-240)
(the copy in `dfw_v6_master_demo.py` lines 189-256 has the same
logic): aggregate the four rules; on any trigger return veto with
`round(min(1.0, confidence_sum / len(reasons)), 2)`. -/
def veto_metadata (reported : MetadataRecord) : VetoResult :=
  let reasons := vetoReasons reported
  if reasons.isEmpty then
    { veto := false, reason := "No ATL invariant violated.", confidence := 0 }
  else
    { veto := true
      reason := joinWith "; " reasons
      confidence :=
        pyRound 2 (min 1 (confidenceSum reported / (reasons.length : Rat))) }

/-- Spec-side description for claim C4: the list of confidences of the
triggered rules, from the spec table (0.95, 0.50, 0.85, 0.90). -/
def triggeredConfidences (r : MetadataRecord) : List Rat :=
  (if veto1_triggers r then [(95 : Rat) / 100] else []) ++
  (if veto2_triggers r then [(50 : Rat) / 100] else []) ++
  (if veto3_triggers r then [(85 : Rat) / 100] else []) ++
  (if veto4_triggers r then [(90 : Rat) / 100] else [])

/-- Concrete fixture: a record whose only triggered rule is the
critical-asset mismatch (Veto 4). -/
def c8Record : MetadataRecord :=
  { target_object := "Human Control Panel" }

/-- Concrete fixture: a record triggering exactly Vetoes 1, 2 and 3
(confidences 0.95, 0.50, 0.85, mean 23/30). -/
def c4Record : MetadataRecord :=
  { estimated_consequences := "No observable physical change will occur."
    predicted_p1_violation := true
    resource_cost_units := 5
    execution_time_seconds := 200 }

/-- Concrete fixture: a record whose only triggered rule is Veto 4. -/
def c4WitnessRecord : MetadataRecord :=
  { target_object := "Life Support unit" }

/-- Concrete fixture: an unknown action type with an execution time
beyond the 9999-second fallback maximum. -/
def c5Record : MetadataRecord :=
  { action_type := "TELEPORT", execution_time_seconds := 10000 }

/-- Concrete fixture: an unknown action type within the 9999-second
fallback maximum. -/
def c5WitnessRecord : MetadataRecord :=
  { action_type := "TELEPORT", execution_time_seconds := 3000 }

-- ====================================================================
-- dfw_v6_risk_trajectory_harness.py : RMDM, HRAI, combined guard
-- ====================================================================

/-- First differences `d1[i] = risks[i+1] - risks[i]` (the loop at
lines 108-112). -/
def diffs : List Rat → List Rat
  | a :: b :: rest => (b - a) :: diffs (b :: rest)
  | _ => []

structure RmdmResult where
  veto : Bool
  reason : String
  max_d1 : Rat
  max_d2 : Rat
deriving Repr, DecidableEq

structure HraiResult where
  veto : Bool
  reason : String
  mass : Rat
deriving Repr, DecidableEq

structure GuardResult where
  veto : Bool
  reason : String
  rmdm : RmdmResult
  hrai : HraiResult
deriving Repr, DecidableEq

/-- Model of `rmdm_check` from `dfw_v6_risk_trajectory_harness.py`
(lines 90-144).  For `n >= 3`, `d1` is non-empty so `max(d1)` is
`listMax d1`; `max_d2` falls back to `0.0` on an empty `d2` exactly as
the source does. -/
def rmdm_check (risks : List Rat) (gamma1 gamma2 : Rat) : RmdmResult :=
  if risks.length < 3 then
    { veto := false, reason := "RMDM: trajectory too short."
      max_d1 := 0, max_d2 := 0 }
  else
    let d1 := diffs risks
    let d2 := diffs d1
    let max_d1 := listMax d1
    let max_d2 := if d2.isEmpty then 0 else listMax d2
    let reasons :=
      (if max_d1 > gamma1 then
        ["RMDM: steep gradient detected (max dR = " ++ toString max_d1 ++
          " > " ++ toString gamma1 ++ ")"] else []) ++
      (if max_d2 > gamma2 then
        ["RMDM: accelerating gradient detected (max d2R = " ++
          toString max_d2 ++ " > " ++ toString gamma2 ++ ")"] else [])
    { veto := !reasons.isEmpty
      reason := if reasons.isEmpty then "RMDM: no gradient/acceleration breach."
        else joinWith "; " reasons
      max_d1 := pyRound 4 max_d1
      max_d2 := pyRound 4 max_d2 }

/-- Model of `hrai_check` (lines 147-182): early return on an empty trajectory,
otherwise veto iff the accumulated mass strictly exceeds `theta`.
Python `sum(risks)` is `List.sum`. -/
def hrai_check (risks : List Rat) (theta : Rat) : HraiResult :=
  if risks.isEmpty then
    { veto := false, reason := "HRAI: empty trajectory.", mass := 0 }
  else
    let mass := risks.sum
    if mass > theta then
      { veto := true
        reason := "HRAI: accumulated risk mass " ++ toString mass ++
          " exceeds theta=" ++ toString theta
        mass := pyRound 4 mass }
    else
      { veto := false
        reason := "HRAI: accumulated risk mass " ++ toString mass ++
          " below theta=" ++ toString theta
        mass := pyRound 4 mass }

/-- Model of `long_horizon_guard` (lines 378-410): run both monitors, veto on
either, concatenate whichever sub-reasons fired. -/
def long_horizon_guard (risks : List Rat) (gamma1 gamma2 theta : Rat) :
    GuardResult :=
  let rmdm_res := rmdm_check risks gamma1 gamma2
  let hrai_res := hrai_check risks theta
  let veto := rmdm_res.veto || hrai_res.veto
  let reasons :=
    (if rmdm_res.veto then ["RMDM: " ++ rmdm_res.reason] else []) ++
    (if hrai_res.veto then ["HRAI: " ++ hrai_res.reason] else [])
  let reasons := if reasons.isEmpty then
    ["No long-horizon guard triggered (RMDM + HRAI)."] else reasons
  { veto := veto
    reason := joinWith " | " reasons
    rmdm := rmdm_res
    hrai := hrai_res }

-- ====================================================================
-- Helper lemmas: weights, string order, sorting, list max, strings
-- ====================================================================

/-- The sequential accumulation in `violation_score` equals the sum of
its four contributions. -/
theorem violation_score_eq (a : Action) (st : SafeState) :
    violation_score a st =
      (if a.causes_irreversible_harm then P1_WEIGHT else 0) +
      (if a.violates_truth_lock || a.violates_auth_lock then P2_WEIGHT else 0) +
      (if a.violates_resource_bounds then P3_WEIGHT else 0) +
      (if st.imminent_harm && !a.is_rescue then P1_WEIGHT else 0) := by
  simp only [violation_score]
  split <;> split <;> split <;> split <;> omega

theorem charListLe_total (as bs : List Char) :
    charListLe as bs = true ∨ charListLe bs as = true := by
  induction as generalizing bs with
  | nil => left; rfl
  | cons a as2 ih =>
    cases bs with
    | nil => right; rfl
    | cons b bs2 =>
      by_cases h1 : a.toNat < b.toNat
      · left; simp [charListLe, h1]
      · by_cases h2 : b.toNat < a.toNat
        · right; simp [charListLe, h1, h2]
        · rcases ih bs2 with h | h
          · left; simp [charListLe, h1, h2, h]
          · right; simp [charListLe, h1, h2, h]

theorem charListLe_trans (as bs cs : List Char)
    (h1 : charListLe as bs = true) (h2 : charListLe bs cs = true) :
    charListLe as cs = true := by
  induction as generalizing bs cs with
  | nil => rfl
  | cons a as2 ih =>
    cases bs with
    | nil => simp [charListLe] at h1
    | cons b bs2 =>
      cases cs with
      | nil => simp [charListLe] at h2
      | cons c cs2 =>
        by_cases hab : a.toNat < b.toNat
        · by_cases hbc : b.toNat < c.toNat
          · have hac : a.toNat < c.toNat := by omega
            simp [charListLe, hac]
          · by_cases hcb : c.toNat < b.toNat
            · simp [charListLe, hbc, hcb] at h2
            · have hac : a.toNat < c.toNat := by omega
              simp [charListLe, hac]
        · by_cases hba : b.toNat < a.toNat
          · simp [charListLe, hab, hba] at h1
          · simp only [charListLe, if_neg hab, if_neg hba] at h1
            by_cases hbc : b.toNat < c.toNat
            · have hac : a.toNat < c.toNat := by omega
              simp [charListLe, hac]
            · by_cases hcb : c.toNat < b.toNat
              · simp [charListLe, hbc, hcb] at h2
              · simp only [charListLe, if_neg hbc, if_neg hcb] at h2
                have hac : ¬ a.toNat < c.toNat := by omega
                have hca : ¬ c.toNat < a.toNat := by omega
                simp only [charListLe, if_neg hac, if_neg hca]
                exact ih bs2 cs2 h1 h2

theorem scoredLe_total (x y : Nat × Action) :
    scoredLe x y = true ∨ scoredLe y x = true := by
  by_cases h1 : x.1 < y.1
  · left; simp [scoredLe, h1]
  · by_cases h2 : y.1 < x.1
    · right; simp [scoredLe, h2]
    · have heq : x.1 = y.1 := by omega
      rcases charListLe_total x.2.name.toList y.2.name.toList with h | h
      · left
        simp only [scoredLe, Bool.or_eq_true, Bool.and_eq_true, beq_iff_eq,
          decide_eq_true_eq]
        exact Or.inr ⟨heq, h⟩
      · right
        simp only [scoredLe, Bool.or_eq_true, Bool.and_eq_true, beq_iff_eq,
          decide_eq_true_eq]
        exact Or.inr ⟨heq.symm, h⟩

theorem scoredLe_trans (x y z : Nat × Action)
    (h1 : scoredLe x y = true) (h2 : scoredLe y z = true) :
    scoredLe x z = true := by
  simp only [scoredLe, Bool.or_eq_true, decide_eq_true_eq, Bool.and_eq_true,
    beq_iff_eq] at h1 h2 ⊢
  rcases h1 with h1 | ⟨h1e, h1s⟩
  · rcases h2 with h2 | ⟨h2e, h2s⟩
    · left; omega
    · left; omega
  · rcases h2 with h2 | ⟨h2e, h2s⟩
    · left; omega
    · right
      refine ⟨by omega, ?_⟩
      exact charListLe_trans _ _ _ h1s h2s

theorem mem_insertSorted (le : α → α → Bool) (x : α) (l : List α) (y : α) :
    y ∈ insertSorted le x l ↔ y = x ∨ y ∈ l := by
  induction l with
  | nil => simp [insertSorted]
  | cons z zs ih =>
    simp only [insertSorted]
    split
    · simp [List.mem_cons]
    · simp only [List.mem_cons, ih]
      tauto

theorem mem_insertionSort (le : α → α → Bool) (l : List α) (y : α) :
    y ∈ insertionSort le l ↔ y ∈ l := by
  induction l with
  | nil => simp [insertionSort]
  | cons x xs ih =>
    simp only [insertionSort, mem_insertSorted, ih, List.mem_cons]

theorem insertionSort_head_min (le : α → α → Bool)
    (htot : ∀ a b, le a b = true ∨ le b a = true)
    (htrans : ∀ a b c, le a b = true → le b c = true → le a c = true)
    (l : List α) (hl : l ≠ []) :
    ∃ m rest, insertionSort le l = m :: rest ∧ ∀ y ∈ l, le m y = true := by
  induction l with
  | nil => exact absurd rfl hl
  | cons x xs ih =>
    by_cases hxs : xs = []
    · subst hxs
      refine ⟨x, [], rfl, ?_⟩
      intro y hy
      rcases List.mem_singleton.1 hy with rfl
      rcases htot y y with h | h <;> exact h
    · obtain ⟨m, rest, hsort, hmin⟩ := ih hxs
      by_cases hxm : le x m = true
      · refine ⟨x, m :: rest, ?_, ?_⟩
        · simp only [insertionSort, hsort, insertSorted, if_pos hxm]
        · intro y hy
          rcases List.mem_cons.1 hy with rfl | hy2
          · rcases htot y y with h | h <;> exact h
          · exact htrans x m y hxm (hmin y hy2)
      · refine ⟨m, insertSorted le x rest, ?_, ?_⟩
        · simp only [insertionSort, hsort, insertSorted, if_neg hxm]
        · intro y hy
          rcases List.mem_cons.1 hy with rfl | hy2
          · rcases htot m y with h | h
            · exact h
            · exact absurd h hxm
          · exact hmin y hy2

theorem foldl_max_acc (l : List Rat) (a b : Rat) :
    List.foldl max (max a b) l = max a (List.foldl max b l) := by
  induction l generalizing b with
  | nil => rfl
  | cons c cs ih =>
    simp only [List.foldl]
    rw [max_assoc, ih]

theorem listMax_cons (x : Rat) (xs : List Rat) (h : xs ≠ []) :
    listMax (x :: xs) = max x (listMax xs) := by
  cases xs with
  | nil => exact absurd rfl h
  | cons y ys =>
    simp only [listMax, List.foldl]
    exact foldl_max_acc ys x y

theorem le_listMax (l : List Rat) (x : Rat) (hx : x ∈ l) : x ≤ listMax l := by
  induction l with
  | nil => simp at hx
  | cons y ys ih =>
    by_cases hys : ys = []
    · subst hys
      rcases List.mem_singleton.1 hx with rfl
      exact le_refl _
    · rw [listMax_cons y ys hys]
      rcases List.mem_cons.1 hx with rfl | hx2
      · exact le_max_left _ _
      · exact le_trans (ih hx2) (le_max_right _ _)

theorem listMax_mem (l : List Rat) (h : l ≠ []) : listMax l ∈ l := by
  induction l with
  | nil => exact absurd rfl h
  | cons y ys ih =>
    by_cases hys : ys = []
    · subst hys
      simp [listMax]
    · rw [listMax_cons y ys hys]
      rcases max_choice y (listMax ys) with hm | hm
      · rw [hm]; exact List.mem_cons_self _ _
      · rw [hm]; exact List.mem_cons_of_mem _ (ih hys)

theorem set_ne_nil (l : List Rat) (i : Nat) (v : Rat) (h : l ≠ []) :
    l.set i v ≠ [] := by
  intro hc
  have := congrArg List.length hc
  simp only [List.length_set, List.length_nil] at this
  exact h (List.length_eq_zero.1 this)

theorem listMax_set_mono (l : List Rat) :
    ∀ (i : Nat) (v : Rat) (h : i < l.length),
      l.get ⟨i, h⟩ ≤ v → listMax l ≤ listMax (l.set i v) := by
  induction l with
  | nil => intro i v h; simp at h
  | cons x xs ih =>
    intro i v h hle
    cases i with
    | zero =>
      cases xs with
      | nil => simpa [listMax] using hle
      | cons y ys =>
        rw [show (x :: y :: ys).set 0 v = v :: y :: ys from rfl]
        rw [listMax_cons x (y :: ys) (by simp), listMax_cons v (y :: ys) (by simp)]
        exact max_le_max hle (le_refl _)
    | succ j =>
      cases xs with
      | nil => simp at h
      | cons y ys =>
        have hj : j < (y :: ys).length := by
          simpa using Nat.lt_of_succ_lt_succ h
        have hget : (y :: ys).get ⟨j, hj⟩ ≤ v := hle
        rw [show (x :: y :: ys).set (j + 1) v = x :: (y :: ys).set j v from rfl]
        rw [listMax_cons x (y :: ys) (by simp),
          listMax_cons x ((y :: ys).set j v) (set_ne_nil _ _ _ (by simp))]
        exact max_le_max (le_refl _) (ih j v hj hget)

theorem diffs_length (l : List Rat) : (diffs l).length = l.length - 1 := by
  induction l with
  | nil => rfl
  | cons a t ih =>
    cases t with
    | nil => rfl
    | cons b t2 =>
      simp only [diffs, List.length_cons] at ih ⊢
      omega

theorem string_eq_empty_of_length (s : String) (h : s.length = 0) : s = "" := by
  cases s with
  | mk data =>
    cases data with
    | nil => rfl
    | cons c cs => simp [String.length] at h

theorem string_ne_empty_of_pos (s : String) (h : 0 < s.length) : s ≠ "" := by
  intro hc
  rw [hc] at h
  simp at h

theorem append_ne_empty_left (s t : String) (h : s ≠ "") : s ++ t ≠ "" := by
  apply string_ne_empty_of_pos
  rw [String.length_append]
  have : s.length ≠ 0 := fun h0 => h (string_eq_empty_of_length s h0)
  omega

theorem joinWith_head_le (sep x : String) (xs : List String) :
    x.length ≤ (joinWith sep (x :: xs)).length := by
  cases xs with
  | nil => exact le_refl _
  | cons y ys =>
    simp only [joinWith, String.length_append]
    omega

theorem joinWith_ne_empty (sep x : String) (xs : List String) (hx : x ≠ "") :
    joinWith sep (x :: xs) ≠ "" := by
  apply string_ne_empty_of_pos
  have hlen : 0 < x.length :=
    Nat.pos_of_ne_zero (fun h0 => hx (string_eq_empty_of_length x h0))
  exact lt_of_lt_of_le hlen (joinWith_head_le sep x xs)

theorem confidenceSum_eq (r : MetadataRecord) :
    confidenceSum r = (triggeredConfidences r).sum := by
  cases h1 : veto1_triggers r <;> cases h2 : veto2_triggers r <;>
    cases h3 : veto3_triggers r <;> cases h4 : veto4_triggers r <;>
    simp [confidenceSum, triggeredConfidences, h1, h2, h3, h4] <;> ring

theorem vetoReasons_length (r : MetadataRecord) :
    (vetoReasons r).length = (triggeredConfidences r).length := by
  cases h1 : veto1_triggers r <;> cases h2 : veto2_triggers r <;>
    cases h3 : veto3_triggers r <;> cases h4 : veto4_triggers r <;>
    simp [vetoReasons, triggeredConfidences, h1, h2, h3, h4]

theorem vetoReasons_nil_iff (r : MetadataRecord) :
    vetoReasons r = [] ↔ triggeredConfidences r = [] := by
  cases h1 : veto1_triggers r <;> cases h2 : veto2_triggers r <;>
    cases h3 : veto3_triggers r <;> cases h4 : veto4_triggers r <;>
    simp [vetoReasons, triggeredConfidences, h1, h2, h3, h4]

theorem veto3_msg_ne (r : MetadataRecord) : veto3_msg r ≠ "" :=
  append_ne_empty_left _ _ (append_ne_empty_left _ _ (append_ne_empty_left _ _
    (append_ne_empty_left _ _ (append_ne_empty_left _ _
      (append_ne_empty_left _ _ (by decide))))))

theorem veto4_msg_ne (r : MetadataRecord) : veto4_msg r ≠ "" :=
  append_ne_empty_left _ _ (append_ne_empty_left _ _ (by decide))

theorem mem_ite_singleton {c : Prop} [Decidable c] {m s : String}
    (h : s ∈ if c then [m] else []) : s = m := by
  revert h
  split <;> intro h
  · exact List.mem_singleton.1 h
  · simp at h

theorem vetoReasons_all_ne (r : MetadataRecord) :
    ∀ s ∈ vetoReasons r, s ≠ "" := by
  intro s hs
  simp only [vetoReasons, List.mem_append] at hs
  rcases hs with ((hs | hs) | hs) | hs
  · rcases mem_ite_singleton hs with rfl
    decide
  · rcases mem_ite_singleton hs with rfl
    decide
  · rcases mem_ite_singleton hs with rfl
    exact veto3_msg_ne r
  · rcases mem_ite_singleton hs with rfl
    exact veto4_msg_ne r

/-- The combined guard's veto flag is the disjunction of the two
monitor flags. -/
theorem long_horizon_guard_veto (risks : List Rat) (g1 g2 t : Rat) :
    (long_horizon_guard risks g1 g2 t).veto =
      ((rmdm_check risks g1 g2).veto || (hrai_check risks t).veto) := by
  simp only [long_horizon_guard]

-- ====================================================================
-- Claim theorems
-- ====================================================================

/-- Claim C1, counterexample to the claim as stated: under a state with
imminent harm, the rescue action `A` with causes-irreversible-harm=true
does NOT get a strictly greater violation score than the non-rescue
action `B` that lacks the flag but violates the truth lock, because `B`
picks up the tier-1 omission penalty (`A` scores 10^6, `B` scores
10^6 + 10^3). -/
theorem violation_score_c1_counterexample :
    ¬ (violation_score { name := "B", violates_truth_lock := true }
          { imminent_harm := true }
        < violation_score
          { name := "A", causes_irreversible_harm := true, is_rescue := true }
          { imminent_harm := true }) := by
  decide

/-- Claim C1 (amended): for every SafetyState, an action with
causes-irreversible-harm = true scores at least the tier-1 weight; and
it scores strictly more than any action lacking the flag under the same
state, except in the one configuration the omission rule penalises the
unflagged action only (imminent harm with the flagged action a rescue
and the unflagged one not). -/
theorem violation_score_c1 :
    ∀ (st : SafeState) (a b : Action),
      a.causes_irreversible_harm = true →
      P1_WEIGHT ≤ violation_score a st ∧
      (b.causes_irreversible_harm = false →
        ¬(st.imminent_harm = true ∧ a.is_rescue = true ∧ b.is_rescue = false) →
        violation_score b st < violation_score a st) := by
  intro st a b ha
  constructor
  · rw [violation_score_eq, ha]
    simp only [if_true]
    omega
  · intro hb hno
    rw [violation_score_eq a st, violation_score_eq b st, ha, hb]
    simp only [if_true, if_false, Bool.false_eq_true]
    have homles : (if st.imminent_harm && !b.is_rescue then P1_WEIGHT else 0) ≤
        (if st.imminent_harm && !a.is_rescue then P1_WEIGHT else 0) := by
      cases hst : st.imminent_harm <;> cases har : a.is_rescue <;>
        cases hbr : b.is_rescue <;> simp_all
    have h2 : (if b.violates_truth_lock || b.violates_auth_lock then
        P2_WEIGHT else 0) ≤ P2_WEIGHT := by split <;> simp [P2_WEIGHT]
    have h3 : (if b.violates_resource_bounds then P3_WEIGHT else 0) ≤
        P3_WEIGHT := by split <;> simp [P3_WEIGHT]
    have hw : P2_WEIGHT + P3_WEIGHT < P1_WEIGHT := by decide
    omega

/-- Claim C1 witness: concrete instantiation (imminent-harm state,
flagged non-rescue action `A`, plain action `B`). -/
theorem violation_score_c1_witness :
    P1_WEIGHT ≤ violation_score
      { name := "A", causes_irreversible_harm := true } { imminent_harm := true } ∧
    violation_score { name := "B" } { imminent_harm := true } <
      violation_score
        { name := "A", causes_irreversible_harm := true } { imminent_harm := true } := by
  have h := violation_score_c1 { imminent_harm := true }
    { name := "A", causes_irreversible_harm := true } { name := "B" } rfl
  exact ⟨h.1, h.2 rfl (by decide)⟩

/-- Claim C2: with imminent-harm = true and is-rescue = false, the
score is exactly the score the action would get without the imminent
state plus one extra tier-1 weight; with causes-irreversible-harm also
set, the score is at least twice the tier-1 weight. -/
theorem violation_score_c2 :
    ∀ (st : SafeState) (a : Action),
      st.imminent_harm = true → a.is_rescue = false →
      violation_score a st =
        violation_score a { imminent_harm := false } + P1_WEIGHT ∧
      (a.causes_irreversible_harm = true →
        2 * P1_WEIGHT ≤ violation_score a st) := by
  intro st a hst har
  constructor
  · rw [violation_score_eq a st, violation_score_eq a { imminent_harm := false }]
    rw [hst, har]
    simp
  · intro hharm
    rw [violation_score_eq a st, hst, har, hharm]
    simp only [if_true]
    simp
    omega

/-- Claim C2 witness: the omission penalty at a concrete flagged
non-rescue action under imminent harm. -/
theorem violation_score_c2_witness :
    violation_score { name := "DoNothing", causes_irreversible_harm := true }
        { imminent_harm := true } =
      violation_score { name := "DoNothing", causes_irreversible_harm := true }
        { imminent_harm := false } + P1_WEIGHT ∧
    2 * P1_WEIGHT ≤
      violation_score { name := "DoNothing", causes_irreversible_harm := true }
        { imminent_harm := true } := by
  have h := violation_score_c2 { imminent_harm := true }
    { name := "DoNothing", causes_irreversible_harm := true } rfl rfl
  exact ⟨h.1, h.2 rfl⟩

/-- Claim C7: an unauthorised exit is a refused no-op leaving the state
exactly unchanged; an authorised exit from SafeMode resets to
inactive with an empty reason. -/
theorem exit_safe_mode_c7 :
    ∀ st : SafeModeState,
      exit_safe_mode st false = st ∧
      (st.active = true →
        exit_safe_mode st true = { active := false, reason := "" }) := by
  intro st
  exact ⟨rfl, fun _ => rfl⟩

/-- Claim C7 witness: concrete active state with a stored reason. -/
theorem exit_safe_mode_c7_witness :
    exit_safe_mode { active := true, reason := "CPM disagreement" } false =
      { active := true, reason := "CPM disagreement" } ∧
    exit_safe_mode { active := true, reason := "CPM disagreement" } true =
      { active := false, reason := "" } := by
  have h := exit_safe_mode_c7 { active := true, reason := "CPM disagreement" }
  exact ⟨h.1, h.2 rfl⟩

/-- Claim C10: an authorised exit yields the inactive/empty-reason
state from any prior state (including an already-inactive one), and is
idempotent. -/
theorem exit_safe_mode_c10 :
    ∀ st : SafeModeState,
      exit_safe_mode st true = { active := false, reason := "" } ∧
      exit_safe_mode (exit_safe_mode st true) true = exit_safe_mode st true := by
  intro st
  exact ⟨rfl, rfl⟩

/-- Claim C3: `choose_action` fails with the distinct empty-input error
on an empty candidate list; otherwise it is a pure deterministic
function returning a candidate whose `(score, name)` key is minimal:
lower score than every other candidate, or equal score and
lexicographically-no-greater name (ties on score broken by ascending
name). -/
theorem choose_action_c3 :
    (∀ st : SafeState,
      choose_action [] st = Except.error "No candidate actions provided.") ∧
    (∀ (c : List Action) (st : SafeState),
      choose_action c st = choose_action c st) ∧
    (∀ (c : List Action) (st : SafeState), c ≠ [] →
      ∃ a, choose_action c st = Except.ok a ∧ a ∈ c ∧
        ∀ b ∈ c, violation_score a st < violation_score b st ∨
          (violation_score a st = violation_score b st ∧
            strLe a.name b.name = true)) := by
  refine ⟨fun st => rfl, fun c st => rfl, ?_⟩
  intro c st hc
  have hcE : c.isEmpty = false := by
    cases c with
    | nil => exact absurd rfl hc
    | cons x xs => rfl
  have hscored : c.map (fun a => (violation_score a st, a)) ≠ [] := by
    intro h
    exact hc (List.map_eq_nil_iff.1 h)
  obtain ⟨m, rest, hsort, hmin⟩ :=
    insertionSort_head_min scoredLe scoredLe_total scoredLe_trans
      (c.map (fun a => (violation_score a st, a))) hscored
  have hmem : m ∈ c.map (fun a => (violation_score a st, a)) := by
    rw [← mem_insertionSort scoredLe]
    rw [hsort]
    exact List.mem_cons_self _ _
  obtain ⟨a, hain, hma⟩ := List.mem_map.1 hmem
  refine ⟨a, ?_, hain, ?_⟩
  · simp only [choose_action, hcE, Bool.false_eq_true, if_false, hsort]
    rw [← hma]
  · intro b hb
    have hble := hmin (violation_score b st, b)
      (List.mem_map.2 ⟨b, hb, rfl⟩)
    rw [← hma] at hble
    simp only [scoredLe, Bool.or_eq_true, Bool.and_eq_true, beq_iff_eq,
      decide_eq_true_eq] at hble
    rcases hble with h | ⟨h1, h2⟩
    · exact Or.inl h
    · exact Or.inr ⟨h1, h2⟩

/-- Claim C3 witness: the empty-candidate hypothesis discharged at the
two-action MDR demo scenario. -/
theorem choose_action_c3_witness :
    ∃ a, choose_action
        [{ name := "DoNothing" }, { name := "RescueHuman", is_rescue := true }]
        { imminent_harm := true } = Except.ok a ∧
      a ∈ [({ name := "DoNothing" } : Action),
        { name := "RescueHuman", is_rescue := true }] ∧
      ∀ b ∈ [({ name := "DoNothing" } : Action),
          { name := "RescueHuman", is_rescue := true }],
        violation_score a { imminent_harm := true } <
            violation_score b { imminent_harm := true } ∨
          (violation_score a { imminent_harm := true } =
              violation_score b { imminent_harm := true } ∧
            strLe a.name b.name = true) :=
  choose_action_c3.2.2
    [{ name := "DoNothing" }, { name := "RescueHuman", is_rescue := true }]
    { imminent_harm := true } (by simp)

/-- Claim C9: the ensemble aggregator returns exactly 0 on an empty
sequence and the maximum element otherwise (so it is an element of the
input that bounds every input), and replacing any single input with a
larger value never decreases the output. -/
theorem aggregate_c9 :
    aggregate_ensemble_confidence [] = 0 ∧
    (∀ l : List Rat, l ≠ [] →
      aggregate_ensemble_confidence l ∈ l ∧
      ∀ x ∈ l, x ≤ aggregate_ensemble_confidence l) ∧
    (∀ (l : List Rat) (i : Nat) (v : Rat) (h : i < l.length),
      l.get ⟨i, h⟩ ≤ v →
      aggregate_ensemble_confidence l ≤
        aggregate_ensemble_confidence (l.set i v)) := by
  refine ⟨rfl, ?_, ?_⟩
  · intro l hl
    have hE : l.isEmpty = false := by
      cases l with
      | nil => exact absurd rfl hl
      | cons x xs => rfl
    constructor
    · simpa [aggregate_ensemble_confidence, hE] using listMax_mem l hl
    · intro x hx
      simpa [aggregate_ensemble_confidence, hE] using le_listMax l x hx
  · intro l i v h hle
    have hl : l ≠ [] := by
      intro hc
      subst hc
      simp at h
    have hE : l.isEmpty = false := by
      cases l with
      | nil => exact absurd rfl hl
      | cons x xs => rfl
    have hE2 : (l.set i v).isEmpty = false := by
      cases hs : l.set i v with
      | nil => exact absurd hs (set_ne_nil l i v hl)
      | cons x xs => rfl
    simpa [aggregate_ensemble_confidence, hE, hE2] using
      listMax_set_mono l i v h hle

/-- Claim C9 witness: membership and monotonic replacement at a
concrete two-element ensemble. -/
theorem aggregate_c9_witness :
    aggregate_ensemble_confidence [1 / 2, 1 / 4] ∈ [(1 : Rat) / 2, 1 / 4] ∧
    aggregate_ensemble_confidence [1 / 2, 1 / 4] ≤
      aggregate_ensemble_confidence ([(1 : Rat) / 2, 1 / 4].set 1 1) :=
  ⟨(aggregate_c9.2.1 [1 / 2, 1 / 4] (by simp)).1,
   aggregate_c9.2.2 [1 / 2, 1 / 4] 1 1 (by simp) (by norm_num)⟩

/-- Claim C6: the combined guard vetoes iff either monitor does; the
gradient monitor answers no-veto with the explicit too-short reason for
every trajectory of length < 3, and for length >= 3 vetoes exactly when
the maximum first difference exceeds gamma1 or the maximum second
difference exceeds gamma2; the mass monitor yields mass 0 and no veto
on an empty trajectory and otherwise vetoes iff the sum strictly
exceeds theta. -/
theorem long_horizon_guard_c6 :
    (∀ (risks : List Rat) (g1 g2 t : Rat),
      (long_horizon_guard risks g1 g2 t).veto =
        ((rmdm_check risks g1 g2).veto || (hrai_check risks t).veto)) ∧
    (∀ (risks : List Rat) (g1 g2 : Rat), risks.length < 3 →
      rmdm_check risks g1 g2 =
        { veto := false, reason := "RMDM: trajectory too short."
          max_d1 := 0, max_d2 := 0 }) ∧
    (∀ (risks : List Rat) (g1 g2 : Rat), 3 ≤ risks.length →
      ((rmdm_check risks g1 g2).veto = true ↔
        listMax (diffs risks) > g1 ∨ listMax (diffs (diffs risks)) > g2)) ∧
    (∀ t : Rat, hrai_check [] t =
      { veto := false, reason := "HRAI: empty trajectory.", mass := 0 }) ∧
    (∀ (risks : List Rat) (t : Rat), risks ≠ [] →
      ((hrai_check risks t).veto = true ↔ risks.sum > t)) := by
  refine ⟨?_, ?_, ?_, fun t => rfl, ?_⟩
  · intro risks g1 g2 t
    simp only [long_horizon_guard]
  · intro risks g1 g2 h
    simp only [rmdm_check, if_pos h]
  · intro risks g1 g2 h
    have hlt : ¬ risks.length < 3 := by omega
    have hd2 : (diffs (diffs risks)).isEmpty = false := by
      have h1 := diffs_length risks
      have h2 := diffs_length (diffs risks)
      cases hd : diffs (diffs risks) with
      | nil =>
        rw [hd] at h2
        simp only [List.length_nil] at h2
        omega
      | cons a t2 => rfl
    by_cases hA : listMax (diffs risks) > g1 <;>
      by_cases hB : listMax (diffs (diffs risks)) > g2 <;>
      simp [rmdm_check, hlt, hd2, hA, hB]
  · intro risks t hne
    have hE : risks.isEmpty = false := by
      cases risks with
      | nil => exact absurd rfl hne
      | cons x xs => rfl
    by_cases hm : risks.sum > t <;> simp [hrai_check, hE, hm]

/-- Claim C6 witness: the three hypotheses discharged at concrete
trajectories (a length-1, a length-3, and a non-empty one). -/
theorem long_horizon_guard_c6_witness :
    rmdm_check [1 / 2] (1 / 10) (1 / 20) =
      { veto := false, reason := "RMDM: trajectory too short."
        max_d1 := 0, max_d2 := 0 } ∧
    ((rmdm_check [0, 0, 1] (1 / 10) (1 / 20)).veto = true ↔
      listMax (diffs [0, 0, 1]) > 1 / 10 ∨
        listMax (diffs (diffs [0, 0, 1])) > 1 / 20) ∧
    ((hrai_check [1] (4 / 5)).veto = true ↔ [(1 : Rat)].sum > 4 / 5) :=
  ⟨long_horizon_guard_c6.2.1 [1 / 2] (1 / 10) (1 / 20) (by simp),
   long_horizon_guard_c6.2.2.1 [0, 0, 1] (1 / 10) (1 / 20) (by simp),
   long_horizon_guard_c6.2.2.2.2 [1] (4 / 5) (by simp)⟩

/-- Claim C8, counterexample to the claim as stated: `enter_safe_mode`
stores the caller-supplied reason verbatim, so a call with an empty
reason leaves an empty stored reason. -/
theorem reasons_c8_counterexample :
    (enter_safe_mode { active := false, reason := "" } "").reason = "" := by
  rfl

/-- Claim C8 (amended): every veto evaluator that returns veto = true
carries a non-empty reason string; `enter_safe_mode` stores exactly the
caller-supplied reason, so the stored reason is non-empty whenever the
supplied one is. -/
theorem reasons_c8 :
    (∀ r : MetadataRecord,
      (veto_metadata r).veto = true → (veto_metadata r).reason ≠ "") ∧
    (∀ (risks : List Rat) (g1 g2 : Rat),
      (rmdm_check risks g1 g2).veto = true →
        (rmdm_check risks g1 g2).reason ≠ "") ∧
    (∀ (risks : List Rat) (t : Rat),
      (hrai_check risks t).veto = true → (hrai_check risks t).reason ≠ "") ∧
    (∀ (risks : List Rat) (g1 g2 t : Rat),
      (long_horizon_guard risks g1 g2 t).veto = true →
        (long_horizon_guard risks g1 g2 t).reason ≠ "") ∧
    (∀ (st : SafeModeState) (reason : String),
      (enter_safe_mode st reason).reason = reason ∧
      (reason ≠ "" → (enter_safe_mode st reason).reason ≠ "")) := by
  refine ⟨?_, ?_, ?_, ?_, fun st reason => ⟨rfl, fun h => h⟩⟩
  · intro r hv
    by_cases hE : (vetoReasons r).isEmpty
    · simp [veto_metadata, hE] at hv
    · simp only [veto_metadata, hE, Bool.false_eq_true, if_false]
      cases hrs : vetoReasons r with
      | nil => rw [hrs] at hE; exact absurd rfl hE
      | cons x xs =>
        exact joinWith_ne_empty _ x xs
          (vetoReasons_all_ne r x (hrs ▸ List.mem_cons_self x xs))
  · intro risks g1 g2 hv
    by_cases hlt : risks.length < 3
    · simp [rmdm_check, hlt] at hv
    · by_cases hA : listMax (diffs risks) > g1
      · simp only [rmdm_check, hlt, if_false, hA, if_true, List.cons_append,
          List.isEmpty_cons, Bool.false_eq_true, if_false]
        apply joinWith_ne_empty
        apply append_ne_empty_left
        apply append_ne_empty_left
        apply append_ne_empty_left
        apply append_ne_empty_left
        decide
      · by_cases hB : (if (diffs (diffs risks)).isEmpty then 0
            else listMax (diffs (diffs risks))) > g2
        · simp only [rmdm_check, hlt, if_false, hA, hB, if_true,
            List.nil_append, List.isEmpty_cons, Bool.false_eq_true]
          apply joinWith_ne_empty
          apply append_ne_empty_left
          apply append_ne_empty_left
          apply append_ne_empty_left
          apply append_ne_empty_left
          decide
        · simp only [rmdm_check, hlt, if_false, hA, hB, List.nil_append,
            List.isEmpty_nil, Bool.not_true, Bool.false_eq_true] at hv
  · intro risks t hv
    by_cases hE : risks.isEmpty
    · simp [hrai_check, hE] at hv
    · by_cases hm : risks.sum > t
      · simp only [hrai_check, hE, Bool.false_eq_true, if_false, hm, if_true]
        apply append_ne_empty_left
        apply append_ne_empty_left
        apply append_ne_empty_left
        decide
      · simp [hrai_check, hE, hm] at hv
  · intro risks g1 g2 t _
    by_cases hr : (rmdm_check risks g1 g2).veto = true
    · simp only [long_horizon_guard, hr, if_true, List.cons_append,
        List.isEmpty_cons, Bool.false_eq_true, if_false]
      apply joinWith_ne_empty
      apply append_ne_empty_left
      decide
    · have hrF : (rmdm_check risks g1 g2).veto = false := by
        cases hx : (rmdm_check risks g1 g2).veto with
        | false => rfl
        | true => exact absurd hx hr
      by_cases hh : (hrai_check risks t).veto = true
      · simp only [long_horizon_guard, hrF, Bool.false_eq_true, if_false, hh,
          if_true, List.nil_append, List.isEmpty_cons]
        apply joinWith_ne_empty
        apply append_ne_empty_left
        decide
      · have hhF : (hrai_check risks t).veto = false := by
          cases hx : (hrai_check risks t).veto with
          | false => rfl
          | true => exact absurd hx hh
        simp only [long_horizon_guard, hrF, hhF, Bool.false_eq_true, if_false,
          List.nil_append, List.isEmpty_nil, if_true]
        apply joinWith_ne_empty
        decide

/-- Claim C8 witness: concrete veto-producing inputs for each
evaluator (critical-asset metadata, a steep trajectory, a heavy
trajectory) and a non-empty safe-mode entry reason. -/
theorem reasons_c8_witness :
    (veto_metadata c8Record).reason ≠ "" ∧
    (rmdm_check [0, 1, 2] (1 / 10) (1 / 20)).reason ≠ "" ∧
    (hrai_check [1] (1 / 2)).reason ≠ "" ∧
    (long_horizon_guard [0, 1, 2] (1 / 10) (1 / 20) (1 / 2)).reason ≠ "" ∧
    (enter_safe_mode { active := false, reason := "" }
      "metadata inconsistency").reason ≠ "" := by
  have h1 : veto1_triggers c8Record = false := by decide
  have h2 : veto2_triggers c8Record = false := by decide
  have h3 : veto3_triggers c8Record = false := by
    rw [veto3_triggers]
    apply decide_eq_false
    norm_num [c8Record, time_max_for, MAX_TIME_BY_ACTION, List.lookup]
  have h4 : veto4_triggers c8Record = true := by decide
  have hv1 : (veto_metadata c8Record).veto = true := by
    simp [veto_metadata, vetoReasons, h1, h2, h3, h4]
  have hd : diffs [0, 1, 2] = [1, 1] := by norm_num [diffs]
  have hv2 : (rmdm_check [0, 1, 2] (1 / 10) (1 / 20)).veto = true := by
    have hA : listMax (diffs [0, 1, 2]) > 1 / 10 := by
      rw [hd]
      norm_num [listMax, List.foldl]
    have hlen : ¬ ([0, 1, 2] : List Rat).length < 3 := by norm_num
    simp only [rmdm_check, hlen, if_false, hA, if_true, List.cons_append,
      List.isEmpty_cons, Bool.not_false]
  have hv3 : (hrai_check [1] (1 / 2)).veto = true := by
    have hE : ([1] : List Rat).isEmpty = false := rfl
    have hm : List.sum ([1] : List Rat) > 1 / 2 := by norm_num
    simp only [hrai_check, hE, Bool.false_eq_true, if_false, hm, if_true]
  have hv4 : (long_horizon_guard [0, 1, 2] (1 / 10) (1 / 20) (1 / 2)).veto =
      true := by
    rw [long_horizon_guard_veto, hv2, Bool.true_or]
  refine ⟨reasons_c8.1 _ hv1, reasons_c8.2.1 [0, 1, 2] (1 / 10) (1 / 20) hv2,
    reasons_c8.2.2.1 [1] (1 / 2) hv3,
    reasons_c8.2.2.2.1 [0, 1, 2] (1 / 10) (1 / 20) (1 / 2) hv4, ?_⟩
  exact (reasons_c8.2.2.2.2 { active := false, reason := "" }
    "metadata inconsistency").2 (by decide)

/-- Claim C4, counterexample to the claim as stated: on a record
triggering exactly Vetoes 1, 2 and 3 the returned confidence is the
two-decimal rounding 0.77, not the exact mean 23/30 of the triggered
confidences (0.95, 0.50, 0.85). -/
theorem veto_metadata_c4_counterexample :
    (veto_metadata c4Record).veto = true ∧
    triggeredConfidences c4Record = [95 / 100, 50 / 100, 85 / 100] ∧
    (veto_metadata c4Record).confidence ≠
      min 1 (((95 : Rat) / 100 + 50 / 100 + 85 / 100) / 3) := by
  have h1 : veto1_triggers c4Record = true := by decide
  have h2 : veto2_triggers c4Record = true := by decide
  have h3 : veto3_triggers c4Record = true := by
    rw [veto3_triggers]
    apply decide_eq_true
    norm_num [c4Record, time_max_for, MAX_TIME_BY_ACTION, List.lookup]
  have h4 : veto4_triggers c4Record = false := by decide
  have htc : triggeredConfidences c4Record = [95 / 100, 50 / 100, 85 / 100] := by
    simp [triggeredConfidences, h1, h2, h3, h4]
  have hre : vetoReasons c4Record = [veto1_msg, veto2_msg, veto3_msg c4Record] := by
    simp [vetoReasons, h1, h2, h3, h4]
  have hE : (vetoReasons c4Record).isEmpty = false := by rw [hre]; rfl
  have hcs : confidenceSum c4Record = 23 / 10 := by
    simp [confidenceSum, h1, h2, h3, h4]
    norm_num
  refine ⟨?_, htc, ?_⟩
  · simp [veto_metadata, hE]
  · have hconf : (veto_metadata c4Record).confidence =
        pyRound 2 (min 1 (confidenceSum c4Record /
          ((vetoReasons c4Record).length : Rat))) := by
      simp only [veto_metadata, hE, Bool.false_eq_true, if_false]
    rw [hconf, hcs, hre]
    have hlen : (([veto1_msg, veto2_msg, veto3_msg c4Record] :
        List String).length : Rat) = 3 := by
      norm_num
    rw [hlen]
    have harg : min (1 : Rat) ((23 : Rat) / 10 / 3) = 23 / 30 := by
      rw [min_eq_right (by norm_num)]
      norm_num
    have hmean : min (1 : Rat) (((95 : Rat) / 100 + 50 / 100 + 85 / 100) / 3) =
        23 / 30 := by
      rw [min_eq_right (by norm_num)]
      norm_num
    rw [harg, hmean]
    norm_num [pyRound]

/-- Claim C4 (amended): with zero triggered rules the engine returns
veto = false with confidence exactly 0; with one or more it returns
veto = true with confidence the arithmetic mean of the triggered rule
confidences, capped at 1.0 and rounded to two decimal places. -/
theorem veto_metadata_c4 :
    ∀ r : MetadataRecord,
      (triggeredConfidences r = [] →
        veto_metadata r =
          { veto := false, reason := "No ATL invariant violated."
            confidence := 0 }) ∧
      (triggeredConfidences r ≠ [] →
        (veto_metadata r).veto = true ∧
        (veto_metadata r).confidence =
          pyRound 2 (min 1 ((triggeredConfidences r).sum /
            ((triggeredConfidences r).length : Rat)))) := by
  intro r
  constructor
  · intro h
    have hre : vetoReasons r = [] := (vetoReasons_nil_iff r).2 h
    simp [veto_metadata, hre]
  · intro h
    have hre : vetoReasons r ≠ [] := fun hc => h ((vetoReasons_nil_iff r).1 hc)
    have hE : (vetoReasons r).isEmpty = false := by
      cases hrs : vetoReasons r with
      | nil => exact absurd hrs hre
      | cons x xs => rfl
    constructor
    · simp [veto_metadata, hE]
    · simp only [veto_metadata, hE, Bool.false_eq_true, if_false]
      rw [confidenceSum_eq, vetoReasons_length]

/-- Claim C4 witness: a record whose only triggered rule is the
critical-asset mismatch. -/
theorem veto_metadata_c4_witness :
    triggeredConfidences c4WitnessRecord ≠ [] ∧
    (veto_metadata c4WitnessRecord).veto = true ∧
    (veto_metadata c4WitnessRecord).confidence =
      pyRound 2 (min 1 ((triggeredConfidences c4WitnessRecord).sum /
        ((triggeredConfidences c4WitnessRecord).length : Rat))) := by
  have h1 : veto1_triggers c4WitnessRecord = false := by decide
  have h2 : veto2_triggers c4WitnessRecord = false := by decide
  have h3 : veto3_triggers c4WitnessRecord = false := by
    rw [veto3_triggers]
    apply decide_eq_false
    norm_num [c4WitnessRecord, time_max_for, MAX_TIME_BY_ACTION, List.lookup]
  have h4 : veto4_triggers c4WitnessRecord = true := by decide
  have hne : triggeredConfidences c4WitnessRecord ≠ [] := by
    simp [triggeredConfidences, h1, h2, h3, h4]
  exact ⟨hne, (veto_metadata_c4 c4WitnessRecord).2 hne⟩

/-- Claim C5, counterexample to the claim as stated: the unknown
action type "TELEPORT" with a 10000-second execution time does trigger
Rule 3 (10000 > 9999), and the veto engine vetoes the record, so the
fallback maximum is not "effectively unbounded" for all execution
times. -/
theorem veto_metadata_c5_counterexample :
    c5Record.action_type ∉ ["MOVE", "ACQUIRE", "COMMUNICATE", "ANALYSIS"] ∧
    veto3_triggers c5Record = true ∧
    (veto_metadata c5Record).veto = true := by
  have h1 : veto1_triggers c5Record = false := by decide
  have h2 : veto2_triggers c5Record = false := by decide
  have h3 : veto3_triggers c5Record = true := by
    have e1 : ("TELEPORT" == "MOVE") = false := by decide
    have e2 : ("TELEPORT" == "ACQUIRE") = false := by decide
    have e3 : ("TELEPORT" == "COMMUNICATE") = false := by decide
    have e4 : ("TELEPORT" == "ANALYSIS") = false := by decide
    rw [veto3_triggers]
    apply decide_eq_true
    norm_num [c5Record, time_max_for, MAX_TIME_BY_ACTION, List.lookup,
      e1, e2, e3, e4]
  have h4 : veto4_triggers c5Record = false := by decide
  have hre : vetoReasons c5Record = [veto3_msg c5Record] := by
    simp [vetoReasons, h1, h2, h3, h4]
  have hE : (vetoReasons c5Record).isEmpty = false := by rw [hre]; rfl
  refine ⟨by decide, h3, ?_⟩
  simp [veto_metadata, hE]

/-- Claim C5 (amended): for every record whose action type is not one
of the four known ones, the time-disproportion rule uses the
permissive fallback maximum of 9999 seconds, and hence triggers
exactly when the execution time strictly exceeds 9999 seconds (in
particular never for any execution time up to 9999 seconds). -/
theorem veto_metadata_c5 :
    ∀ r : MetadataRecord,
      r.action_type ∉ ["MOVE", "ACQUIRE", "COMMUNICATE", "ANALYSIS"] →
      time_max_for r.action_type = 9999 ∧
      (veto3_triggers r = true ↔ r.execution_time_seconds > 9999) := by
  intro r h
  simp only [List.mem_cons, List.not_mem_nil, or_false, not_or] at h
  obtain ⟨hm, ha, hc, hy⟩ := h
  have e1 : (r.action_type == "MOVE") = false := beq_eq_false_iff_ne.2 hm
  have e2 : (r.action_type == "ACQUIRE") = false := beq_eq_false_iff_ne.2 ha
  have e3 : (r.action_type == "COMMUNICATE") = false := beq_eq_false_iff_ne.2 hc
  have e4 : (r.action_type == "ANALYSIS") = false := beq_eq_false_iff_ne.2 hy
  have hmax : time_max_for r.action_type = 9999 := by
    simp [time_max_for, MAX_TIME_BY_ACTION, List.lookup, e1, e2, e3, e4]
  refine ⟨hmax, ?_⟩
  simp only [veto3_triggers, hmax, decide_eq_true_eq]

/-- Claim C5 witness: the fallback bound instantiated at the unknown
action type "TELEPORT" with a 3000-second execution time. -/
theorem veto_metadata_c5_witness :
    time_max_for c5WitnessRecord.action_type = 9999 ∧
    (veto3_triggers c5WitnessRecord = true ↔
      c5WitnessRecord.execution_time_seconds > 9999) :=
  veto_metadata_c5 c5WitnessRecord (by decide)

end DFW
